import Mathlib

/-!
Shallow embedding of the To-Do-App persistence layer (`To-Do-App.py`,
database section) and of the two presentation-layer priority helpers
(`get_priority_bg`, the priority-selector population in
`ToDoApp.on_task_selected`), together with proofs of the specified
properties.

The SQLite table `TODO` is modelled as a list of rows in insertion
(rowid) order plus the next AUTOINCREMENT identifier.  SQL fragments are
modelled directly: `LIKE` as a wildcard matcher that is case-insensitive
on ASCII (SQLite's default), `ORDER BY` as a merge sort with the
corresponding comparator, text comparison as code-point lexicographic
order (SQLite's BINARY collation on UTF-8 text).
-/

namespace ToDo

/-- Fold an ASCII upper-case letter to lower case, as SQLite's default
`LIKE` does before comparing characters. -/
def charLower (c : Char) : Char :=
  if 'A' ≤ c ∧ c ≤ 'Z' then Char.ofNat (c.toNat + 32) else c

/-- SQLite `LIKE` pattern matching over character lists: `%` matches any
(possibly empty) sequence, `_` matches exactly one character, any other
character matches itself up to ASCII case folding.  A `%` succeeds when
the rest of the pattern matches some suffix of the remaining text. -/
def likeMatch : List Char → List Char → Bool
  | [], s => s.isEmpty
  | '%' :: p, s => s.tails.any (fun t => likeMatch p t)
  | '_' :: p, s =>
    match s with
    | [] => false
    | _ :: t => likeMatch p t
  | a :: p, s =>
    match s with
    | [] => false
    | c :: t => (charLower a == charLower c) && likeMatch p t

/-- Match a string against an SQL LIKE pattern; `get_tasks` builds the
pattern `'%' ++ f ++ '%'` for a search text `f`. -/
def sqlLike (pat s : String) : Bool :=
  likeMatch pat.data s.data

/-- Plain, case-sensitive prefix test on character lists (spec-side
helper). -/
def startsWithChars : List Char → List Char → Bool
  | [], _ => true
  | _ :: _, [] => false
  | a :: xs, b :: ys => (a == b) && startsWithChars xs ys

/-- Spec-side definition, following the spec's words: `needle` occurs in
`hay` as a plain, case-sensitive substring (it is a prefix of some
suffix). -/
def containsSubstring (needle hay : String) : Bool :=
  hay.data.tails.any (fun t => startsWithChars needle.data t)

/-- Code-point comparison of text, modelling SQLite's BINARY collation
on the stored `TEXT` columns (`a ≤ b`). -/
def charListLe : List Char → List Char → Bool
  | [], _ => true
  | _ :: _, [] => false
  | a :: xs, b :: ys => if a = b then charListLe xs ys else decide (a < b)

/-- Text `a ≤ b` under SQLite's BINARY collation. -/
def textLe (a b : String) : Bool :=
  charListLe a.data b.data


/-! ## Data model -/

/-- One row of the `TODO` table, in the column order used by every
`SELECT` in the source: id, name, description, completed, created_at,
due_date, priority.  `completed` is the 0/1 integer written by
`add_task`/`toggle_completed`, `due_date` is a nullable text column. -/
structure Task where
  id : Nat
  name : String
  description : String
  completed : Bool
  created_at : String
  due_date : Option String
  priority : Int
deriving DecidableEq, Repr

/-- The database state: rows in rowid (insertion) order plus the next
AUTOINCREMENT id. -/
structure Store where
  tasks : List Task
  nextId : Nat
deriving DecidableEq, Repr

/-- Well-formedness guaranteed by `INTEGER PRIMARY KEY AUTOINCREMENT`:
every existing rowid is below the next one, and rowids are unique. -/
def Wf (s : Store) : Prop :=
  (∀ t ∈ s.tasks, t.id < s.nextId) ∧ (s.tasks.map Task.id).Nodup

instance (s : Store) : Decidable (Wf s) := by
  unfold Wf
  infer_instance

/-- The allow-listed `ORDER BY` clauses of `ORDER_MAP`. -/
inductive OrderClause where
  | priorityCreated
  | createdOnly
  | priorityOnly
deriving DecidableEq, Repr

/-- The safe ORDER BY mapping from UI labels to clauses
(`ORDER_MAP` in the source). -/
def ORDER_MAP : List (String × OrderClause) :=
  [("priority,created_at", .priorityCreated),
   ("created_at", .createdOnly),
   ("priority", .priorityOnly)]

/-- Comparison realised by each `ORDER BY` clause: `orderLe oc a b` holds
when `a` may come before `b`. -/
def orderLe : OrderClause → Task → Task → Bool
  | .priorityCreated, a, b =>
    decide (b.priority < a.priority) ||
      (decide (a.priority = b.priority) && textLe b.created_at a.created_at)
  | .createdOnly, a, b => textLe b.created_at a.created_at
  | .priorityOnly, a, b => decide (b.priority ≤ a.priority)

/-! ## Persistence operations -/

/-- Python's `due_date if due_date else None` applied to the due-date
argument: the empty string and `None` are falsy and stored as NULL. -/
def nullifyFalsy : Option String → Option String
  | none => none
  | some s => if s = "" then none else some s

/-- Model of `add_task`: insert one row with `completed = 0`,
`created_at` equal to the current UTC timestamp text (passed in as
`now`), the due date nullified when falsy, and the next AUTOINCREMENT
id.  No validation is performed and nothing is returned. -/
def add_task (s : Store) (name description : String) (due_date : Option String)
    (priority : Int) (now : String) : Store :=
  { tasks := s.tasks ++
      [{ id := s.nextId, name := name, description := description,
         completed := false, created_at := now,
         due_date := nullifyFalsy due_date, priority := priority }],
    nextId := s.nextId + 1 }

/-- The WHERE clause of `get_tasks` for a non-empty search text:
`name LIKE '%f%' OR description LIKE '%f%'`. -/
def rowMatches (f : String) (t : Task) : Bool :=
  sqlLike ("%" ++ f ++ "%") t.name || sqlLike ("%" ++ f ++ "%") t.description

/-- Model of `get_tasks`: when `filter_text` is truthy (non-empty) keep
the rows matching the LIKE clause, then sort by the given `ORDER BY`
clause. -/
def get_tasks (s : Store) (filter_text : String) (order_by : OrderClause) : List Task :=
  (if filter_text = "" then s.tasks else s.tasks.filter (rowMatches filter_text)).mergeSort
    (orderLe order_by)

/-- Model of `get_task_by_id`: `fetchone` on `WHERE id = ?` returns the
first (and, on well-formed stores, only) row with that id, or `None`. -/
def get_task_by_id (s : Store) (task_id : Nat) : Option Task :=
  s.tasks.find? (fun t => t.id == task_id)

/-- Model of `update_task`: overwrite name, description, due date
(nullified when falsy) and priority of every row with the given id;
rows with other ids are untouched. -/
def update_task (s : Store) (task_id : Nat) (name description : String)
    (due_date : Option String) (priority : Int) : Store :=
  { s with tasks := s.tasks.map (fun t =>
      if t.id = task_id then
        { t with name := name, description := description,
                 due_date := nullifyFalsy due_date, priority := priority }
      else t) }

/-- Model of `delete_task`: remove every row with the given id. -/
def delete_task (s : Store) (task_id : Nat) : Store :=
  { s with tasks := s.tasks.filter (fun t => t.id != task_id) }

/-- Model of `toggle_completed`: the single-statement
`completed = CASE WHEN completed=0 THEN 1 ELSE 0 END` flip. -/
def toggle_completed (s : Store) (task_id : Nat) : Store :=
  { s with tasks := s.tasks.map (fun t =>
      if t.id = task_id then { t with completed := !t.completed } else t) }

/-! ## CSV export -/

/-- Header row written by `export_tasks_to_csv`. -/
def headerRow : List String :=
  ["id", "name", "description", "completed", "created_at", "due_date", "priority"]

/-- Python `str()` of the stored 0/1 completed integer. -/
def renderBool (b : Bool) : String := if b then "1" else "0"

/-- One CSV record for a row, as `csv.writer.writerow(list(t))` renders
it: fields in SELECT order, `None` rendered as the empty field. -/
def taskToRow (t : Task) : List String :=
  [toString t.id, t.name, t.description, renderBool t.completed,
   t.created_at, t.due_date.getD "", toString t.priority]

/-- Outcome of the `get_tasks("")` call at the top of
`export_tasks_to_csv` (before the `try` block): it either returns or
raises. -/
inductive ReadOutcome where
  | ok
  | raise (msg : String)

/-- Outcome of opening and writing the CSV file inside the `try` block:
success, or an exception after `k` records have been written. -/
inductive WriteOutcome where
  | ok
  | failAfter (k : Nat) (msg : String)

/-- Model of `export_tasks_to_csv`.  The file system is treated as the
optional contents of the target file (`none` when the file does not
exist); the returned pair is (file contents after the call, outcome),
where `Except.error` means an uncaught exception propagated to the
caller and `Except.ok (flag, msg)` is the function's return value.
`get_tasks("")` runs before the `try`, so its exception propagates with
the file untouched; a write failure is caught and returned as
`(False, str(e))` with the records written so far left in place. -/
def export_tasks_to_csv (s : Store) (filepath : String) (r : ReadOutcome)
    (w : WriteOutcome) (file0 : Option (List (List String))) :
    Option (List (List String)) × Except String (Bool × String) :=
  match r with
  | .raise m => (file0, .error m)
  | .ok =>
    let tasks := get_tasks s "" .priorityCreated
    let rows := headerRow :: tasks.map taskToRow
    match w with
    | .ok =>
      (some rows,
       .ok (true, "Exported " ++ toString tasks.length ++ " tasks to " ++ filepath))
    | .failAfter k m => (some (rows.take k), .ok (false, m))

/-! ## Presentation helpers for priority -/

/-- The light-theme priority colour dictionary `PRIORITY_LIGHT`;
`none` models a missing key. -/
def PRIORITY_LIGHT (p : Int) : Option String :=
  if p = 1 then some "#fff1f0" else if p = 2 then some "#fff8e6"
  else if p = 3 then some "#effaf1" else none

/-- The dark-theme priority colour dictionary `PRIORITY_DARK`. -/
def PRIORITY_DARK (p : Int) : Option String :=
  if p = 1 then some "#4c1111" else if p = 2 then some "#664900"
  else if p = 3 then some "#0f5132" else none

/-- The default card colour `LIGHT["card"]`. -/
def LIGHT_card : String := "#e1edff"

/-- The default card colour `DARK["card"]`. -/
def DARK_card : String := "#102230"

/-- Both presentation sites observe the stored priority value only
through `try: p = int(priority) except Exception: p = 2`.  The
`priority` column is dynamically typed (SQLite does not enforce the
declared `INTEGER` type), so a row may hold an integer — on which
`int()` is the identity — or arbitrary text, on which Python's `int()`
either returns the parsed integer (for example "7", "+5", " 5" or
"1_0") or raises (for example "abc" or "").  A stored value is
therefore modelled by the outcome of `int()` on it: `some i` when
`int()` returns `i`, `none` when it raises, and `coercePriority` is the
embedding of the try/except statement itself. -/
def coercePriority (r : Option Int) : Int :=
  r.getD 2

/-- Model of `get_priority_bg`, applied to the `int()` outcome for the
stored value: coerce, then look the result up in the theme's priority
dictionary with the theme's card colour as the dictionary-miss
default. -/
def get_priority_bg (r : Option Int) (is_dark : Bool) : String :=
  let p := coercePriority r
  if is_dark then (PRIORITY_DARK p).getD DARK_card
  else (PRIORITY_LIGHT p).getD LIGHT_card

/-- Model of the priority-selector label built in
`ToDoApp.on_task_selected`, applied to the `int()` outcome for the
stored value:
`f"{p} - {'High' if p==1 else 'Medium' if p==2 else 'Low'}"` after the
same coercion. -/
def priority_label (r : Option Int) : String :=
  let p := coercePriority r
  toString p ++ " - " ++ (if p = 1 then "High" else if p = 2 then "Medium" else "Low")

/-! ## Helper lemmas -/

lemma map_id_of_eq {α : Type} {f : α → α} :
    ∀ {l : List α}, (∀ a ∈ l, f a = a) → l.map f = l := by
  intro l
  induction l with
  | nil => intro _; rfl
  | cons x xs ih =>
    intro h
    simp only [List.map_cons]
    rw [h x (List.mem_cons_self x xs), ih (fun a ha => h a (List.mem_cons_of_mem x ha))]

lemma get_tasks_perm (s : Store) (f : String) (oc : OrderClause) :
    (get_tasks s f oc).Perm
      (if f = "" then s.tasks else s.tasks.filter (rowMatches f)) :=
  List.mergeSort_perm _ _

lemma get_tasks_empty_perm (s : Store) (oc : OrderClause) :
    (get_tasks s "" oc).Perm s.tasks := by
  have h := get_tasks_perm s "" oc
  rwa [if_pos rfl] at h

lemma mem_get_tasks {s : Store} {f : String} {oc : OrderClause} {t : Task} :
    t ∈ get_tasks s f oc → t ∈ s.tasks := by
  intro ht
  have h := (get_tasks_perm s f oc).mem_iff.mp ht
  by_cases hf : f = ""
  · rwa [if_pos hf] at h
  · rw [if_neg hf] at h
    exact (List.mem_filter.mp h).1

lemma charListLe_total : ∀ xs ys : List Char,
    (charListLe xs ys || charListLe ys xs) = true := by
  intro xs
  induction xs with
  | nil => intro ys; simp [charListLe]
  | cons a xs ih =>
    intro ys
    cases ys with
    | nil => simp [charListLe]
    | cons b ys =>
      by_cases hab : a = b
      · subst hab
        simpa only [charListLe, if_pos rfl] using ih ys
      · have hba : b ≠ a := fun h => hab h.symm
        simp only [charListLe, if_neg hab, if_neg hba, Bool.or_eq_true,
          decide_eq_true_eq]
        rcases lt_or_gt_of_ne hab with h | h
        · exact Or.inl h
        · exact Or.inr h

lemma charListLe_trans : ∀ xs ys zs : List Char,
    charListLe xs ys = true → charListLe ys zs = true → charListLe xs zs = true := by
  intro xs
  induction xs with
  | nil => intro ys zs _ _; rfl
  | cons a xs ih =>
    intro ys zs h1 h2
    cases ys with
    | nil => simp [charListLe] at h1
    | cons b ys =>
      cases zs with
      | nil => simp [charListLe] at h2
      | cons c zs =>
        by_cases hab : a = b <;> by_cases hbc : b = c
        · subst hab; subst hbc
          simp only [charListLe, if_pos rfl] at h1 h2 ⊢
          exact ih ys zs h1 h2
        · subst hab
          simp only [charListLe, if_neg hbc] at h2 ⊢
          exact h2
        · subst hbc
          simp only [charListLe, if_neg hab] at h1 ⊢
          exact h1
        · simp only [charListLe, if_neg hab] at h1
          simp only [charListLe, if_neg hbc] at h2
          have hac : a < c :=
            lt_trans (of_decide_eq_true h1) (of_decide_eq_true h2)
          simp only [charListLe, if_neg (ne_of_lt hac)]
          exact decide_eq_true hac

lemma orderLePC_iff (a b : Task) :
    orderLe .priorityCreated a b = true ↔
      (b.priority < a.priority ∨
        (a.priority = b.priority ∧ textLe b.created_at a.created_at = true)) := by
  simp [orderLe]

lemma orderLePC_total (a b : Task) :
    (orderLe .priorityCreated a b || orderLe .priorityCreated b a) = true := by
  simp only [Bool.or_eq_true, orderLePC_iff]
  rcases lt_trichotomy a.priority b.priority with h | h | h
  · exact Or.inr (Or.inl h)
  · have htot := charListLe_total b.created_at.data a.created_at.data
    rw [Bool.or_eq_true] at htot
    rcases htot with hc | hc
    · exact Or.inl (Or.inr ⟨h, hc⟩)
    · exact Or.inr (Or.inr ⟨h.symm, hc⟩)
  · exact Or.inl (Or.inl h)

lemma orderLePC_trans (a b c : Task) :
    orderLe .priorityCreated a b = true → orderLe .priorityCreated b c = true →
      orderLe .priorityCreated a c = true := by
  simp only [orderLePC_iff]
  intro h1 h2
  rcases h1 with h1 | ⟨h1, l1⟩
  · rcases h2 with h2 | ⟨h2, _⟩
    · exact Or.inl (by omega)
    · exact Or.inl (by omega)
  · rcases h2 with h2 | ⟨h2, l2⟩
    · exact Or.inl (by omega)
    · exact Or.inr ⟨by omega, charListLe_trans _ _ _ l2 l1⟩

/-! ## Concrete rows used by counterexamples and witnesses -/

/-- A row whose name and description contain no underscore and no
percent sign. -/
def wildcardTask : Task :=
  { id := 1, name := "abc", description := "", completed := false,
    created_at := "2025-01-01T00:00:00", due_date := none, priority := 2 }

/-- A generic concrete row. -/
def frameTask : Task :=
  { id := 1, name := "Buy milk", description := "old", completed := true,
    created_at := "2025-01-01T00:00:00", due_date := some "2025-01-05", priority := 3 }

/-! ## Claims -/

/-- C1, counterexample: `list` implements the filter with SQL
`LIKE '%filter_text%'`, in which `_` is a one-character wildcard.  With
the single store row named "abc" (description empty), the filter text
"_" returns that row even though neither its name nor its description
contains "_" as a plain substring, so `list(filter_text)` does not
return exactly the tasks containing `filter_text` as a substring. -/
theorem get_tasks_wildcard_not_substring :
    get_tasks ⟨[wildcardTask], 2⟩ "_" .priorityCreated = [wildcardTask] ∧
    containsSubstring "_" wildcardTask.name = false ∧
    containsSubstring "_" wildcardTask.description = false := by
  refine ⟨?_, by decide, by decide⟩
  show (List.filter (rowMatches "_") [wildcardTask]).mergeSort (orderLe .priorityCreated) =
    [wildcardTask]
  rw [show List.filter (rowMatches "_") [wildcardTask] = [wildcardTask] from by decide,
    List.mergeSort_singleton]

/-- C1, amended: for every filter text, `list(filter_text)` returns
exactly (up to the requested reordering) the tasks whose name or
description matches the SQL LIKE pattern `%filter_text%`, where `%`
matches any sequence, `_` matches any single character, and ASCII
letters compare case-insensitively; for the empty string it returns all
tasks. -/
theorem get_tasks_like_semantics (s : Store) (f : String) (oc : OrderClause) :
    (get_tasks s f oc).Perm
      (if f = "" then s.tasks else s.tasks.filter (rowMatches f)) ∧
    (∀ t : Task, t ∈ get_tasks s f oc ↔
      t ∈ s.tasks ∧ (f = "" ∨ rowMatches f t = true)) := by
  refine ⟨get_tasks_perm s f oc, fun t => ?_⟩
  rw [(get_tasks_perm s f oc).mem_iff]
  by_cases hf : f = ""
  · simp [hf]
  · rw [if_neg hf, List.mem_filter]
    simp [hf]

/-- C2, counterexample: the stored integer priority 5 is outside
{1,2,3} but is not coerced to 2 by the presentation layer: the card
background falls back to the theme's plain card colour instead of the
Medium colour, and the details selector is set to "5 - Low" instead of
"2 - Medium". -/
theorem priority_out_of_range_not_coerced :
    get_priority_bg (some 5) false = LIGHT_card ∧
    get_priority_bg (some 5) false ≠ get_priority_bg (some 2) false ∧
    get_priority_bg (some 5) true = DARK_card ∧
    get_priority_bg (some 5) true ≠ get_priority_bg (some 2) true ∧
    priority_label (some 5) = "5 - Low" ∧
    priority_label (some 5) ≠ "2 - Medium" := by
  decide

/-- C2, amended: a stored priority value on which Python's `int(...)`
raises is coerced to 2 (Medium) by both presentation sites; a stored
value on which `int(...)` yields an integer outside {1,2,3} is kept as
is: the card background falls back to the theme's default card colour
and the details selector is set to the label "p - Low".  The stored
value is represented by the outcome `r` of `int()` on it, the only
observation either site makes of it. -/
theorem priority_presentation_coercion (r : Option Int) (d : Bool) :
    (r = none →
      get_priority_bg r d = get_priority_bg (some 2) d ∧
      priority_label r = "2 - Medium") ∧
    (∀ p : Int, r = some p → p ≠ 1 → p ≠ 2 → p ≠ 3 →
      get_priority_bg r d = (if d then DARK_card else LIGHT_card) ∧
      priority_label r = toString p ++ " - " ++ "Low") := by
  constructor
  · intro h
    subst h
    exact ⟨rfl, by decide⟩
  · intro p hp h1 h2 h3
    subst hp
    have hc : coercePriority (some p) = p := rfl
    constructor
    · simp [get_priority_bg, hc, PRIORITY_DARK, PRIORITY_LIGHT, h1, h2, h3]
    · simp [priority_label, hc, h1, h2]

/-- C2, witness: the amended statement applied at a raising `int()`
outcome (as for stored text "abc") and at the out-of-range integer
outcome 5. -/
theorem priority_presentation_coercion_witness :
    (get_priority_bg none false = get_priority_bg (some 2) false ∧
      priority_label none = "2 - Medium") ∧
    (get_priority_bg (some 5) true = (if true then DARK_card else LIGHT_card) ∧
      priority_label (some 5) = toString (5 : Int) ++ " - " ++ "Low") :=
  ⟨(priority_presentation_coercion none false).1 rfl,
   (priority_presentation_coercion (some 5) true).2 5 rfl (by decide) (by decide)
     (by decide)⟩

/-- C3, counterexample: `get_tasks("")` runs before the `try` block of
`export_tasks_to_csv`, so an exception raised while reading the tasks
from the store propagates to the caller instead of being converted to a
`(False, error text)` failure result. -/
theorem export_read_exception_propagates :
    (export_tasks_to_csv ⟨[], 1⟩ "tasks.csv" (.raise "database is locked") .ok none).2 =
      .error "database is locked" ∧
    (export_tasks_to_csv ⟨[], 1⟩ "tasks.csv" (.raise "database is locked") .ok none).2 ≠
      .ok (false, "database is locked") :=
  ⟨rfl, fun h => Except.noConfusion h⟩

/-- C3, amended: an exception raised while opening or writing the file
is caught once and converted to the failure result `(False, error
text)`, with the records written so far left in place; an exception
raised by the store read propagates to the caller with the file
untouched. -/
theorem export_failure_semantics (s : Store) (fp m : String) (k : Nat)
    (f0 : Option (List (List String))) (w : WriteOutcome) :
    (export_tasks_to_csv s fp .ok (.failAfter k m) f0).2 = .ok (false, m) ∧
    (export_tasks_to_csv s fp .ok (.failAfter k m) f0).1 =
      some ((headerRow :: (get_tasks s "" .priorityCreated).map taskToRow).take k) ∧
    export_tasks_to_csv s fp (.raise m) w f0 = (f0, .error m) :=
  ⟨rfl, rfl, rfl⟩

/-- C4: the allow-list maps the "priority then recency" label to the
clause `priority DESC, created_at DESC`, and `list` with that clause
returns a permutation of the (filtered) store rows that is sorted by
descending priority with ties broken by descending creation time. -/
theorem get_tasks_priority_then_recency_sorted (s : Store) (f : String) :
    ORDER_MAP.lookup "priority,created_at" = some .priorityCreated ∧
    (get_tasks s f .priorityCreated).Perm
      (if f = "" then s.tasks else s.tasks.filter (rowMatches f)) ∧
    (get_tasks s f .priorityCreated).Pairwise (fun a b =>
      b.priority < a.priority ∨
        (a.priority = b.priority ∧ textLe b.created_at a.created_at = true)) := by
  refine ⟨rfl, get_tasks_perm s f .priorityCreated, ?_⟩
  have hs := @List.sorted_mergeSort Task (orderLe .priorityCreated)
    orderLePC_trans orderLePC_total
    (if f = "" then s.tasks else s.tasks.filter (rowMatches f))
  exact hs.imp (fun hab => (orderLePC_iff _ _).mp hab)

/-- C5: on a successful export the file holds exactly the header row
followed by one CSV record per store row (the rows being a permutation
of the store, rendered field by field in SELECT column order), and the
returned message reports the number of tasks in the store. -/
theorem export_success_content (s : Store) (fp : String)
    (f0 : Option (List (List String))) :
    (export_tasks_to_csv s fp .ok .ok f0).1 =
      some (headerRow :: (get_tasks s "" .priorityCreated).map taskToRow) ∧
    (get_tasks s "" .priorityCreated).Perm s.tasks ∧
    (export_tasks_to_csv s fp .ok .ok f0).2 =
      .ok (true, "Exported " ++ toString s.tasks.length ++ " tasks to " ++ fp) := by
  refine ⟨rfl, get_tasks_empty_perm s _, ?_⟩
  show Except.ok
    (true, "Exported " ++ toString (get_tasks s "" .priorityCreated).length ++
      " tasks to " ++ fp) = _
  rw [(get_tasks_empty_perm s .priorityCreated).length_eq]

/-- C6: `add_task` appends exactly one new row, with the next
AUTOINCREMENT identifier, `completed = false`, `created_at` equal to
the creation-moment timestamp, and that row is retrievable through
`get_task_by_id` under the store's AUTOINCREMENT invariant; no
validation of the name or the priority is performed (the statement
holds for every name and priority) and nothing but the new store is
produced. -/
theorem add_task_inserts_one_row (s : Store) (h : Wf s) (nm dsc : String)
    (due : Option String) (p : Int) (now : String) :
    ∃ t : Task,
      (add_task s nm dsc due p now).tasks = s.tasks ++ [t] ∧
      (add_task s nm dsc due p now).nextId = s.nextId + 1 ∧
      t.id = s.nextId ∧ t.completed = false ∧ t.created_at = now ∧
      get_task_by_id (add_task s nm dsc due p now) s.nextId = some t := by
  have hta : (add_task s nm dsc due p now).tasks = s.tasks ++
      [{ id := s.nextId, name := nm, description := dsc, completed := false,
         created_at := now, due_date := nullifyFalsy due, priority := p }] := rfl
  refine ⟨_, hta, rfl, rfl, rfl, rfl, ?_⟩
  unfold get_task_by_id
  rw [hta, List.find?_append]
  have h1 : s.tasks.find? (fun t => t.id == s.nextId) = none := by
    rw [List.find?_eq_none]
    intro x hx hbeq
    exact absurd (beq_iff_eq.mp hbeq) (Nat.ne_of_lt (h.1 x hx))
  rw [h1, Option.none_or]
  simp [List.find?]

/-- C6, witness: inserting "Buy milk" into the empty store. -/
theorem add_task_inserts_one_row_witness :
    ∃ t : Task,
      (add_task ⟨[], 1⟩ "Buy milk" "" (some "2025-01-01") 1 "2025-01-01T10:00:00").tasks =
        [] ++ [t] ∧
      (add_task ⟨[], 1⟩ "Buy milk" "" (some "2025-01-01") 1 "2025-01-01T10:00:00").nextId =
        1 + 1 ∧
      t.id = 1 ∧ t.completed = false ∧ t.created_at = "2025-01-01T10:00:00" ∧
      get_task_by_id
        (add_task ⟨[], 1⟩ "Buy milk" "" (some "2025-01-01") 1 "2025-01-01T10:00:00") 1 =
        some t :=
  add_task_inserts_one_row ⟨[], 1⟩ (by decide) "Buy milk" "" (some "2025-01-01") 1
    "2025-01-01T10:00:00"

/-- C7: toggling completion twice with the same identifier restores the
whole store, and in particular every task's completed flag, to its
original value. -/
theorem toggle_completed_involution (s : Store) (i : Nat) :
    toggle_completed (toggle_completed s i) i = s := by
  cases s with
  | mk ts n =>
    show Store.mk ((ts.map _).map _) n = Store.mk ts n
    rw [List.map_map]
    refine congrArg (fun l => Store.mk l n) (map_id_of_eq ?_)
    intro t _
    by_cases h : t.id = i
    · dsimp only [Function.comp_apply]
      rw [if_pos h]
      dsimp only
      rw [if_pos h]
      simp
    · dsimp only [Function.comp_apply]
      rw [if_neg h, if_neg h]

/-- C8: `update_task` overwrites exactly the mutable fields (name,
description, due date, priority) of every row carrying the given id,
leaving its id, completed flag and creation time unchanged; rows with
other ids and the next identifier are untouched, and when no row
carries the id the whole store is unchanged. -/
theorem update_task_frame (s : Store) (i : Nat) (nm dsc : String)
    (due : Option String) (p : Int) :
    (update_task s i nm dsc due p).nextId = s.nextId ∧
    (update_task s i nm dsc due p).tasks.length = s.tasks.length ∧
    (∀ j : Nat, ∀ t : Task, s.tasks[j]? = some t → t.id ≠ i →
      (update_task s i nm dsc due p).tasks[j]? = some t) ∧
    (∀ j : Nat, ∀ t : Task, s.tasks[j]? = some t → t.id = i →
      (update_task s i nm dsc due p).tasks[j]? = some
        { t with name := nm, description := dsc,
                 due_date := nullifyFalsy due, priority := p }) ∧
    ((∀ t ∈ s.tasks, t.id ≠ i) → update_task s i nm dsc due p = s) := by
  have hts : (update_task s i nm dsc due p).tasks = s.tasks.map (fun t =>
      if t.id = i then
        { t with name := nm, description := dsc,
                 due_date := nullifyFalsy due, priority := p }
      else t) := rfl
  refine ⟨rfl, by rw [hts, List.length_map], ?_, ?_, ?_⟩
  · intro j t hj hne
    rw [hts, List.getElem?_map, hj, Option.map_some', if_neg hne]
  · intro j t hj heq
    rw [hts, List.getElem?_map, hj, Option.map_some', if_pos heq]
  · intro hall
    have hid : s.tasks.map (fun t =>
        if t.id = i then
          { t with name := nm, description := dsc,
                   due_date := nullifyFalsy due, priority := p }
        else t) = s.tasks :=
      map_id_of_eq (fun t ht => if_neg (hall t ht))
    cases s with
    | mk ts n => exact congrArg (fun l => Store.mk l n) hid

/-- C8, witness: updating the one-row store in place, and the silent
no-op on an absent id. -/
theorem update_task_frame_witness :
    (update_task ⟨[frameTask], 2⟩ 1 "Buy bread" "new" (some "2025-02-01") 1).tasks[0]? =
      some { frameTask with
             name := "Buy bread", description := "new",
             due_date := nullifyFalsy (some "2025-02-01"), priority := 1 } ∧
    update_task ⟨[frameTask], 2⟩ 9 "x" "y" none 2 = ⟨[frameTask], 2⟩ :=
  ⟨(update_task_frame ⟨[frameTask], 2⟩ 1 "Buy bread" "new" (some "2025-02-01") 1).2.2.2.1
      0 frameTask rfl rfl,
   (update_task_frame ⟨[frameTask], 2⟩ 9 "x" "y" none 2).2.2.2.2 (by decide)⟩

/-- C9: after `delete_task id`, `get_task_by_id id` returns `None` and
no row of any subsequent `list` result (for any filter and order)
carries that id; deleting an absent id leaves the store unchanged. -/
theorem delete_task_removes (s : Store) (i : Nat) (f : String) (oc : OrderClause) :
    get_task_by_id (delete_task s i) i = none ∧
    (∀ t ∈ get_tasks (delete_task s i) f oc, t.id ≠ i) ∧
    ((∀ t ∈ s.tasks, t.id ≠ i) → delete_task s i = s) := by
  have hts : (delete_task s i).tasks = s.tasks.filter (fun t => t.id != i) := rfl
  refine ⟨?_, ?_, ?_⟩
  · rw [get_task_by_id, hts, List.find?_eq_none]
    intro x hx
    have hxf := (List.mem_filter.mp hx).2
    simp only [bne_iff_ne] at hxf
    simp [hxf]
  · intro t ht
    have hmem : t ∈ (delete_task s i).tasks := mem_get_tasks ht
    rw [hts] at hmem
    have hxf := (List.mem_filter.mp hmem).2
    simpa [bne_iff_ne] using hxf
  · intro hall
    have hid : s.tasks.filter (fun t => t.id != i) = s.tasks := by
      rw [List.filter_eq_self]
      intro a ha
      simp [bne_iff_ne, hall a ha]
    cases s with
    | mk ts n => exact congrArg (fun l => Store.mk l n) hid

/-- C9, witness: deleting the only row makes it unretrievable, and
deleting an absent id is the identity. -/
theorem delete_task_removes_witness :
    get_task_by_id (delete_task ⟨[frameTask], 2⟩ 1) 1 = none ∧
    delete_task ⟨[frameTask], 2⟩ 9 = ⟨[frameTask], 2⟩ :=
  ⟨(delete_task_removes ⟨[frameTask], 2⟩ 1 "" .priorityCreated).1,
   (delete_task_removes ⟨[frameTask], 2⟩ 9 "" .priorityCreated).2.2 (by decide)⟩

/-- C10: a falsy due-date argument (the empty string or `None`) is
stored as NULL by both `add_task` and `update_task`, and a non-empty
due-date string is stored verbatim. -/
theorem due_date_falsy_nullified (s : Store) (nm dsc now : String) (p : Int)
    (i : Nat) (d : String) (hd : d ≠ "") :
    (∃ t : Task, (add_task s nm dsc (some "") p now).tasks = s.tasks ++ [t] ∧
      t.due_date = none) ∧
    (∃ t : Task, (add_task s nm dsc none p now).tasks = s.tasks ++ [t] ∧
      t.due_date = none) ∧
    (∃ t : Task, (add_task s nm dsc (some d) p now).tasks = s.tasks ++ [t] ∧
      t.due_date = some d) ∧
    (∀ j : Nat, ∀ t : Task, s.tasks[j]? = some t → t.id = i →
      (update_task s i nm dsc (some "") p).tasks[j]? =
        some { t with
               name := nm, description := dsc,
               due_date := none, priority := p }) ∧
    (∀ j : Nat, ∀ t : Task, s.tasks[j]? = some t → t.id = i →
      (update_task s i nm dsc (some d) p).tasks[j]? =
        some { t with
               name := nm, description := dsc,
               due_date := some d, priority := p }) := by
  have hnf : nullifyFalsy (some d) = some d := by
    show (if d = "" then none else some d) = some d
    rw [if_neg hd]
  have hne : nullifyFalsy (some "") = none := rfl
  refine ⟨⟨_, rfl, rfl⟩, ⟨_, rfl, rfl⟩, ⟨_, rfl, hnf⟩, ?_, ?_⟩
  · intro j t hj heq
    have hts : (update_task s i nm dsc (some "") p).tasks = s.tasks.map (fun t =>
        if t.id = i then
          { t with name := nm, description := dsc,
                   due_date := nullifyFalsy (some ""), priority := p }
        else t) := rfl
    rw [hts, List.getElem?_map, hj, Option.map_some', if_pos heq, hne]
  · intro j t hj heq
    have hts : (update_task s i nm dsc (some d) p).tasks = s.tasks.map (fun t =>
        if t.id = i then
          { t with name := nm, description := dsc,
                   due_date := nullifyFalsy (some d), priority := p }
        else t) := rfl
    rw [hts, List.getElem?_map, hj, Option.map_some', if_pos heq, hnf]

/-- C10, witness: updating the one-row store with the empty due date
stores NULL, and with a non-empty due date stores it verbatim. -/
theorem due_date_falsy_nullified_witness :
    (update_task ⟨[frameTask], 2⟩ 1 "n" "d" (some "") 2).tasks[0]? =
      some { frameTask with
             name := "n", description := "d",
             due_date := none, priority := 2 } ∧
    (update_task ⟨[frameTask], 2⟩ 1 "n" "d" (some "2025-03-03") 2).tasks[0]? =
      some { frameTask with
             name := "n", description := "d",
             due_date := some "2025-03-03", priority := 2 } :=
  ⟨(due_date_falsy_nullified ⟨[frameTask], 2⟩ "n" "d" "now" 2 1 "2025-03-03"
      (by decide)).2.2.2.1 0 frameTask rfl rfl,
   (due_date_falsy_nullified ⟨[frameTask], 2⟩ "n" "d" "now" 2 1 "2025-03-03"
      (by decide)).2.2.2.2 0 frameTask rfl rfl⟩

end ToDo
